import Mathlib

/-!
Shallow embedding of `src/web/src/backend/kms.ts` (the KMS key-lifecycle and
JWT-signing module of the developer portal), together with theorems settling
the spec claims about it.

Remote calls (STS, KMS) are modelled as oracle parameters: each embedded
function takes the outcome of the remote call it performs (an `Except` value:
`.error` for a thrown/failed call, `.ok` for a response object) and computes
the value the TypeScript function returns.  JavaScript `undefined` results are
modelled as `Option.none`; optional response fields are `Option` fields, and
the JS truthiness test on an object-valued field (e.g. a `Uint8Array`) is
`Option.isSome`, since every JS object — including an empty `Uint8Array` — is
truthy.  Byte arrays are `List Nat` with every entry below 256.
-/

namespace KmsSpec

/-- An error thrown by a remote SDK call (opaque to the code under study). -/
inductive SimError where
  | failure (msg : String) : SimError
deriving DecidableEq, Repr

/-! ## Base64url (unpadded) — semantics of jose's `base64url.encode` -/

/-- The 64-character base64url alphabet (RFC 4648 §5). -/
def b64UrlAlphabet : List Char :=
  ['A','B','C','D','E','F','G','H','I','J','K','L','M','N','O','P',
   'Q','R','S','T','U','V','W','X','Y','Z',
   'a','b','c','d','e','f','g','h','i','j','k','l','m','n','o','p',
   'q','r','s','t','u','v','w','x','y','z',
   '0','1','2','3','4','5','6','7','8','9','-','_']

/-- The character for a 6-bit group. -/
def b64UrlChar (i : Nat) : Char := b64UrlAlphabet.getD i 'A'

/-- The 6-bit value of a base64url character, `none` if not in the alphabet. -/
def b64UrlVal (c : Char) : Option Nat := b64UrlAlphabet.findIdx? (· = c)

/-- Unpadded base64url encoding of a byte sequence (RFC 4648 §5, padding
omitted), three bytes to four characters. -/
def base64urlEncode : List Nat → List Char
  | [] => []
  | [b1] => [b64UrlChar (b1 / 4), b64UrlChar (b1 % 4 * 16)]
  | [b1, b2] => [b64UrlChar (b1 / 4), b64UrlChar (b1 % 4 * 16 + b2 / 16),
                 b64UrlChar (b2 % 16 * 4)]
  | b1 :: b2 :: b3 :: rest =>
      b64UrlChar (b1 / 4) :: b64UrlChar (b1 % 4 * 16 + b2 / 16) ::
      b64UrlChar (b2 % 16 * 4 + b3 / 64) :: b64UrlChar (b3 % 64) ::
      base64urlEncode rest

/-- Unpadded base64url decoding, strict: fails on any character outside the
alphabet or on a length that no byte sequence encodes to. -/
def base64urlDecode : List Char → Option (List Nat)
  | [] => some []
  | [_] => none
  | [c1, c2] =>
      match b64UrlVal c1, b64UrlVal c2 with
      | some v1, some v2 => some [v1 * 4 + v2 / 16]
      | _, _ => none
  | [c1, c2, c3] =>
      match b64UrlVal c1, b64UrlVal c2, b64UrlVal c3 with
      | some v1, some v2, some v3 =>
          some [v1 * 4 + v2 / 16, v2 % 16 * 16 + v3 / 4]
      | _, _, _ => none
  | c1 :: c2 :: c3 :: c4 :: rest =>
      match b64UrlVal c1, b64UrlVal c2, b64UrlVal c3, b64UrlVal c4,
            base64urlDecode rest with
      | some v1, some v2, some v3, some v4, some tail =>
          some ((v1 * 4 + v2 / 16) :: (v2 % 16 * 16 + v3 / 4) ::
                (v3 % 4 * 64 + v4) :: tail)
      | _, _, _, _, _ => none

/-- String form of the unpadded base64url encoding. -/
def base64urlEncodeStr (bs : List Nat) : String := String.mk (base64urlEncode bs)

theorem b64UrlVal_b64UrlChar (i : Nat) (h : i < 64) :
    b64UrlVal (b64UrlChar i) = some i := by
  have H : ∀ j : Fin 64, b64UrlVal (b64UrlChar j.val) = some j.val := by decide
  exact H ⟨i, h⟩

/-- No alphabet character is a dot, plus, slash or equals sign. -/
theorem b64UrlChar_props : ∀ j : Fin 64,
    b64UrlChar j.val ≠ '.' ∧ b64UrlChar j.val ≠ '+' ∧
    b64UrlChar j.val ≠ '/' ∧ b64UrlChar j.val ≠ '=' := by
  decide

/-- Every character produced by the encoder is an alphabet character. -/
theorem base64urlEncode_mem (bs : List Nat) (hb : ∀ b ∈ bs, b < 256) :
    ∀ c ∈ base64urlEncode bs, ∃ i : Fin 64, c = b64UrlChar i.val := by
  induction bs using base64urlEncode.induct with
  | case1 => intro c hc; simp [base64urlEncode] at hc
  | case2 b1 =>
      intro c hc
      have h1 : b1 < 256 := hb b1 (by simp)
      simp only [base64urlEncode, List.mem_cons, List.mem_singleton] at hc
      rcases hc with h | h | h
      · exact ⟨⟨b1 / 4, by omega⟩, h⟩
      · exact ⟨⟨b1 % 4 * 16, by omega⟩, h⟩
      · simp at h
  | case3 b1 b2 =>
      intro c hc
      have h1 : b1 < 256 := hb b1 (by simp)
      have h2 : b2 < 256 := hb b2 (by simp)
      simp only [base64urlEncode, List.mem_cons, List.mem_singleton] at hc
      rcases hc with h | h | h | h
      · exact ⟨⟨b1 / 4, by omega⟩, h⟩
      · exact ⟨⟨b1 % 4 * 16 + b2 / 16, by omega⟩, h⟩
      · exact ⟨⟨b2 % 16 * 4, by omega⟩, h⟩
      · simp at h
  | case4 b1 b2 b3 rest ih =>
      intro c hc
      have h1 : b1 < 256 := hb b1 (by simp)
      have h2 : b2 < 256 := hb b2 (by simp)
      have h3 : b3 < 256 := hb b3 (by simp)
      simp only [base64urlEncode, List.mem_cons] at hc
      rcases hc with h | h | h | h | h
      · exact ⟨⟨b1 / 4, by omega⟩, h⟩
      · exact ⟨⟨b1 % 4 * 16 + b2 / 16, by omega⟩, h⟩
      · exact ⟨⟨b2 % 16 * 4 + b3 / 64, by omega⟩, h⟩
      · exact ⟨⟨b3 % 64, by omega⟩, h⟩
      · exact ih (fun b hbm => hb b (by simp [hbm])) c h

/-- Decoding inverts encoding on genuine byte sequences. -/
theorem base64urlDecode_encode (bs : List Nat) (hb : ∀ b ∈ bs, b < 256) :
    base64urlDecode (base64urlEncode bs) = some bs := by
  induction bs using base64urlEncode.induct with
  | case1 => rfl
  | case2 b1 =>
      have h1 : b1 < 256 := hb b1 (by simp)
      simp only [base64urlEncode, base64urlDecode,
        b64UrlVal_b64UrlChar _ (by omega : b1 / 4 < 64),
        b64UrlVal_b64UrlChar _ (by omega : b1 % 4 * 16 < 64)]
      simp only [Option.some.injEq, List.cons.injEq, and_true]
      omega
  | case3 b1 b2 =>
      have h1 : b1 < 256 := hb b1 (by simp)
      have h2 : b2 < 256 := hb b2 (by simp)
      simp only [base64urlEncode, base64urlDecode,
        b64UrlVal_b64UrlChar _ (by omega : b1 / 4 < 64),
        b64UrlVal_b64UrlChar _ (by omega : b1 % 4 * 16 + b2 / 16 < 64),
        b64UrlVal_b64UrlChar _ (by omega : b2 % 16 * 4 < 64)]
      simp only [Option.some.injEq, List.cons.injEq, and_true]
      constructor <;> omega
  | case4 b1 b2 b3 rest ih =>
      have h1 : b1 < 256 := hb b1 (by simp)
      have h2 : b2 < 256 := hb b2 (by simp)
      have h3 : b3 < 256 := hb b3 (by simp)
      have htail := ih (fun b hbm => hb b (by simp [hbm]))
      simp only [base64urlEncode, base64urlDecode,
        b64UrlVal_b64UrlChar _ (by omega : b1 / 4 < 64),
        b64UrlVal_b64UrlChar _ (by omega : b1 % 4 * 16 + b2 / 16 < 64),
        b64UrlVal_b64UrlChar _ (by omega : b2 % 16 * 4 + b3 / 64 < 64),
        b64UrlVal_b64UrlChar _ (by omega : b3 % 64 < 64),
        htail]
      simp only [Option.some.injEq, List.cons.injEq, and_true]
      refine ⟨by omega, by omega, by omega⟩

/-- The dot is never produced by the encoder. -/
theorem base64urlEncode_no_dot (bs : List Nat) (hb : ∀ b ∈ bs, b < 256) :
    '.' ∉ base64urlEncode bs := by
  intro hmem
  obtain ⟨i, hi⟩ := base64urlEncode_mem bs hb '.' hmem
  exact (b64UrlChar_props i).1 hi.symm

/-! ## Standard base64 with padding — semantics of `Buffer.toString("base64")` -/

/-- The 64-character standard base64 alphabet (RFC 4648 §4). -/
def b64StdAlphabet : List Char :=
  ['A','B','C','D','E','F','G','H','I','J','K','L','M','N','O','P',
   'Q','R','S','T','U','V','W','X','Y','Z',
   'a','b','c','d','e','f','g','h','i','j','k','l','m','n','o','p',
   'q','r','s','t','u','v','w','x','y','z',
   '0','1','2','3','4','5','6','7','8','9','+','/']

/-- The standard-alphabet character for a 6-bit group. -/
def b64StdChar (i : Nat) : Char := b64StdAlphabet.getD i 'A'

/-- The 6-bit value of a standard base64 character (`=` is not a value). -/
def b64StdVal (c : Char) : Option Nat := b64StdAlphabet.findIdx? (· = c)

/-- Standard base64 encoding with `=` padding (RFC 4648 §4), as produced by
Node's `Buffer.prototype.toString("base64")`. -/
def base64StdEncode : List Nat → List Char
  | [] => []
  | [b1] => [b64StdChar (b1 / 4), b64StdChar (b1 % 4 * 16), '=', '=']
  | [b1, b2] => [b64StdChar (b1 / 4), b64StdChar (b1 % 4 * 16 + b2 / 16),
                 b64StdChar (b2 % 16 * 4), '=']
  | b1 :: b2 :: b3 :: rest =>
      b64StdChar (b1 / 4) :: b64StdChar (b1 % 4 * 16 + b2 / 16) ::
      b64StdChar (b2 % 16 * 4 + b3 / 64) :: b64StdChar (b3 % 64) ::
      base64StdEncode rest

/-- Strict padded base64 decoding: four-character groups, `=` only as final
padding. -/
def base64StdDecode : List Char → Option (List Nat)
  | [] => some []
  | c1 :: c2 :: c3 :: c4 :: rest =>
      if c3 = '=' then
        if c4 = '=' ∧ rest = [] then
          match b64StdVal c1, b64StdVal c2 with
          | some v1, some v2 => some [v1 * 4 + v2 / 16]
          | _, _ => none
        else none
      else if c4 = '=' then
        if rest = [] then
          match b64StdVal c1, b64StdVal c2, b64StdVal c3 with
          | some v1, some v2, some v3 =>
              some [v1 * 4 + v2 / 16, v2 % 16 * 16 + v3 / 4]
          | _, _, _ => none
        else none
      else
        match b64StdVal c1, b64StdVal c2, b64StdVal c3, b64StdVal c4,
              base64StdDecode rest with
        | some v1, some v2, some v3, some v4, some tail =>
            some ((v1 * 4 + v2 / 16) :: (v2 % 16 * 16 + v3 / 4) ::
                  (v3 % 4 * 64 + v4) :: tail)
        | _, _, _, _, _ => none
  | _ => none

theorem b64StdVal_b64StdChar (i : Nat) (h : i < 64) :
    b64StdVal (b64StdChar i) = some i := by
  have H : ∀ j : Fin 64, b64StdVal (b64StdChar j.val) = some j.val := by decide
  exact H ⟨i, h⟩

theorem b64StdChar_ne_eq : ∀ j : Fin 64, b64StdChar j.val ≠ '=' := by decide

/-- Decoding inverts padded encoding on genuine byte sequences. -/
theorem base64StdDecode_encode (bs : List Nat) (hb : ∀ b ∈ bs, b < 256) :
    base64StdDecode (base64StdEncode bs) = some bs := by
  induction bs using base64StdEncode.induct with
  | case1 => rfl
  | case2 b1 =>
      have h1 : b1 < 256 := hb b1 (by simp)
      simp only [base64StdEncode, base64StdDecode,
        b64StdChar_ne_eq ⟨b1 % 4 * 16, by omega⟩, if_neg, if_pos,
        b64StdVal_b64StdChar _ (by omega : b1 / 4 < 64),
        b64StdVal_b64StdChar _ (by omega : b1 % 4 * 16 < 64)]
      simp only [if_true, and_self, reduceIte, Option.some.injEq,
        List.cons.injEq, and_true]
      omega
  | case3 b1 b2 =>
      have h1 : b1 < 256 := hb b1 (by simp)
      have h2 : b2 < 256 := hb b2 (by simp)
      have hne := b64StdChar_ne_eq ⟨b2 % 16 * 4, by omega⟩
      simp only [base64StdEncode, base64StdDecode]
      rw [if_neg hne]
      simp only [if_pos rfl, if_pos trivial,
        b64StdVal_b64StdChar _ (by omega : b1 / 4 < 64),
        b64StdVal_b64StdChar _ (by omega : b1 % 4 * 16 + b2 / 16 < 64),
        b64StdVal_b64StdChar _ (by omega : b2 % 16 * 4 < 64)]
      simp only [Option.some.injEq, List.cons.injEq, and_true]
      constructor <;> omega
  | case4 b1 b2 b3 rest ih =>
      have h1 : b1 < 256 := hb b1 (by simp)
      have h2 : b2 < 256 := hb b2 (by simp)
      have h3 : b3 < 256 := hb b3 (by simp)
      have htail := ih (fun b hbm => hb b (by simp [hbm]))
      have hne3 := b64StdChar_ne_eq ⟨b2 % 16 * 4 + b3 / 64, by omega⟩
      have hne4 := b64StdChar_ne_eq ⟨b3 % 64, by omega⟩
      simp only [base64StdEncode, base64StdDecode]
      rw [if_neg hne3, if_neg hne4]
      simp only [b64StdVal_b64StdChar _ (by omega : b1 / 4 < 64),
        b64StdVal_b64StdChar _ (by omega : b1 % 4 * 16 + b2 / 16 < 64),
        b64StdVal_b64StdChar _ (by omega : b2 % 16 * 4 + b3 / 64 < 64),
        b64StdVal_b64StdChar _ (by omega : b3 % 64 < 64),
        htail]
      simp only [Option.some.injEq, List.cons.injEq, and_true]
      refine ⟨by omega, by omega, by omega⟩

/-! ## UTF-8 bytes of a string — semantics of `Buffer.from(string)` and of
jose's `base64url.encode(string)` input conversion -/

theorem char_toNat_lt (c : Char) : c.toNat < 1114112 := by
  rcases c.valid with h | ⟨_, h⟩ <;>
    simp only [Char.toNat] <;>
    [exact lt_trans (by exact_mod_cast h) (by norm_num);
     exact (by exact_mod_cast h)]

/-- UTF-8 encoding of a single Unicode scalar value. -/
def utf8EncodeChar (c : Char) : List Nat :=
  if c.toNat < 128 then [c.toNat]
  else if c.toNat < 2048 then [192 + c.toNat / 64, 128 + c.toNat % 64]
  else if c.toNat < 65536 then
    [224 + c.toNat / 4096, 128 + c.toNat / 64 % 64, 128 + c.toNat % 64]
  else
    [240 + c.toNat / 262144, 128 + c.toNat / 4096 % 64,
     128 + c.toNat / 64 % 64, 128 + c.toNat % 64]

/-- The UTF-8 byte sequence of a string. -/
def utf8Bytes (s : String) : List Nat := (s.data.map utf8EncodeChar).flatten

theorem utf8EncodeChar_lt (c : Char) : ∀ b ∈ utf8EncodeChar c, b < 256 := by
  have h := char_toNat_lt c
  intro b hb
  unfold utf8EncodeChar at hb
  split at hb
  · simp at hb; omega
  · split at hb
    · simp at hb; rcases hb with rfl | rfl <;> omega
    · split at hb
      · simp at hb; rcases hb with rfl | rfl | rfl <;> omega
      · simp at hb; rcases hb with rfl | rfl | rfl | rfl <;> omega

theorem utf8Bytes_lt (s : String) : ∀ b ∈ utf8Bytes s, b < 256 := by
  intro b hb
  simp only [utf8Bytes, List.mem_flatten] at hb
  obtain ⟨l, hl, hbl⟩ := hb
  simp only [List.mem_map] at hl
  obtain ⟨c, _, rfl⟩ := hl
  exact utf8EncodeChar_lt c b hbl

/-! ## JSON serialization — semantics of `JSON.stringify` on flat objects
whose values are strings, which is the shape both `header` and `payload`
take in this module's callers and in the spec's scenarios -/

/-- Opening curly brace character (written by code point to keep JSON text
out of string literals). -/
def lbrace : Char := Char.ofNat 123

/-- Closing curly brace character. -/
def rbrace : Char := Char.ofNat 125

/-- Lowercase hexadecimal digit, as `JSON.stringify` uses in `\u00xx`
escapes. -/
def hexDigit (n : Nat) : Char :=
  if n < 10 then Char.ofNat (48 + n) else Char.ofNat (87 + n)

/-- ECMA-262 `QuoteJSONString` escaping of one character. -/
def jsonEscapeChar (c : Char) : List Char :=
  if c = '"' then ['\\', '"']
  else if c = '\\' then ['\\', '\\']
  else if c = Char.ofNat 8 then ['\\', 'b']
  else if c = '\t' then ['\\', 't']
  else if c = '\n' then ['\\', 'n']
  else if c = Char.ofNat 12 then ['\\', 'f']
  else if c = '\r' then ['\\', 'r']
  else if c.toNat < 32 then
    ['\\', 'u', '0', '0', hexDigit (c.toNat / 16), hexDigit (c.toNat % 16)]
  else [c]

/-- A JSON string literal: quotes around the escaped characters. -/
def jsonQuote (s : String) : List Char :=
  '"' :: (s.data.map jsonEscapeChar).flatten ++ ['"']

/-- A flat JSON object with string values, in insertion order — the shape of
the `header` and `payload` records handed to `signJWTWithKMSKey`.
`JSON.stringify` preserves string-keyed insertion order, so serialization is
determined by the field list. -/
structure JRecord where
  fields : List (String × String)
deriving DecidableEq, Repr

/-- `JSON.stringify` on a flat string-valued object. -/
def jsonStringify (r : JRecord) : String :=
  String.mk (lbrace ::
    List.intercalate [',']
      (r.fields.map fun kv => jsonQuote kv.1 ++ ':' :: jsonQuote kv.2) ++
    [rbrace])

/-- JS property access `r.k` on the modelled object: the value at the first
matching key, `undefined` (`none`) if absent. -/
def jGet (r : JRecord) (k : String) : Option String :=
  (r.fields.find? (fun kv => kv.1 = k)).map (·.2)

/-! ## `dayjs` instants and `toISOString`

A `dayjs` value wraps a JS `Date`; `toISOString` renders its UTC calendar
components in the fixed 24-character `YYYY-MM-DDTHH:mm:ss.sssZ` layout
(ECMA-262 `Date.prototype.toISOString`, for years 0–9999).  The instant is
modelled by its UTC components. -/

/-- The decimal digit character for `n < 10`. -/
def digitChar (n : Nat) : Char := Char.ofNat (48 + n)

/-- Two-digit zero-padded decimal rendering (for `n < 100`). -/
def pad2 (n : Nat) : List Char := [digitChar (n / 10), digitChar (n % 10)]

/-- Three-digit zero-padded decimal rendering (for `n < 1000`). -/
def pad3 (n : Nat) : List Char :=
  [digitChar (n / 100), digitChar (n / 10 % 10), digitChar (n % 10)]

/-- Four-digit zero-padded decimal rendering (for `n < 10000`). -/
def pad4 (n : Nat) : List Char :=
  [digitChar (n / 1000), digitChar (n / 100 % 10), digitChar (n / 10 % 10),
   digitChar (n % 10)]

/-- A `dayjs` instant, by its UTC calendar components. -/
structure Dayjs where
  year : Nat
  month : Nat
  day : Nat
  hour : Nat
  minute : Nat
  second : Nat
  millisecond : Nat
deriving DecidableEq, Repr

/-- Component ranges of a real instant in the four-digit-year era, the range
in which `Date.prototype.toISOString` uses the `YYYY-` layout. -/
def Dayjs.validISO (d : Dayjs) : Prop :=
  d.year ≤ 9999 ∧ 1 ≤ d.month ∧ d.month ≤ 12 ∧ 1 ≤ d.day ∧ d.day ≤ 31 ∧
  d.hour < 24 ∧ d.minute < 60 ∧ d.second < 60 ∧ d.millisecond < 1000

instance (d : Dayjs) : Decidable d.validISO := by
  unfold Dayjs.validISO; infer_instance

/-- `expire_at.toISOString()`: ISO-8601 UTC with millisecond precision,
`YYYY-MM-DDTHH:mm:ss.sssZ`. -/
def toISOString (d : Dayjs) : String :=
  String.mk (pad4 d.year ++ '-' :: pad2 d.month ++ '-' :: pad2 d.day ++
    'T' :: pad2 d.hour ++ ':' :: pad2 d.minute ++ ':' :: pad2 d.second ++
    '.' :: pad3 d.millisecond ++ ['Z'])

theorem digitChar_inj (a b : Nat) (ha : a < 10) (hb : b < 10)
    (h : digitChar a = digitChar b) : a = b := by
  have H : ∀ x y : Fin 10, digitChar x.val = digitChar y.val → x.val = y.val := by
    decide
  exact H ⟨a, ha⟩ ⟨b, hb⟩ h

/-- The ISO rendering loses nothing: it is injective on valid instants. -/
theorem toISOString_inj (d d' : Dayjs) (hd : d.validISO) (hd' : d'.validISO)
    (h : toISOString d = toISOString d') : d = d' := by
  obtain ⟨y, mo, da, ho, mi, se, ms⟩ := d
  obtain ⟨y', mo', da', ho', mi', se', ms'⟩ := d'
  obtain ⟨hy, hm1, hm2, hd1, hd2, hh, hmi, hs, hms⟩ := hd
  obtain ⟨hy', hm1', hm2', hd1', hd2', hh', hmi', hs', hms'⟩ := hd'
  simp only [Dayjs.validISO] at *
  simp only [toISOString, pad4, pad3, pad2, String.ext_iff, List.cons_append,
    List.nil_append, List.cons.injEq, and_true, true_and] at h
  obtain ⟨a1, a2, a3, a4, b1, b2, c1, c2, e1, e2, f1, f2, g1, g2, m1, m2, m3⟩ := h
  have := digitChar_inj _ _ (by omega) (by omega) a1
  have := digitChar_inj _ _ (by omega) (by omega) a2
  have := digitChar_inj _ _ (by omega) (by omega) a3
  have := digitChar_inj _ _ (by omega) (by omega) a4
  have := digitChar_inj _ _ (by omega) (by omega) b1
  have := digitChar_inj _ _ (by omega) (by omega) b2
  have := digitChar_inj _ _ (by omega) (by omega) c1
  have := digitChar_inj _ _ (by omega) (by omega) c2
  have := digitChar_inj _ _ (by omega) (by omega) e1
  have := digitChar_inj _ _ (by omega) (by omega) e2
  have := digitChar_inj _ _ (by omega) (by omega) f1
  have := digitChar_inj _ _ (by omega) (by omega) f2
  have := digitChar_inj _ _ (by omega) (by omega) g1
  have := digitChar_inj _ _ (by omega) (by omega) g2
  have := digitChar_inj _ _ (by omega) (by omega) m1
  have := digitChar_inj _ _ (by omega) (by omega) m2
  have := digitChar_inj _ _ (by omega) (by omega) m3
  simp only [Dayjs.mk.injEq]
  omega

/-! ## The key policy document (`kmsKeyPolicy`, kms.ts lines 19–47)

The source builds the document by string templating.  `kmsKeyPolicy` below
is its semantic content — the JSON object the template spells out, field by
field — and `renderKmsPolicy` reproduces the template's exact text, so that
`kmsKeyPolicyString = renderKmsPolicy ∘ kmsKeyPolicy` holds definitionally. -/

/-- The single statement of the key policy. -/
structure KmsPolicyStatement where
  Sid : String
  Effect : String
  PrincipalAWS : String
  Action : List String
  Resource : String
  ConditionOp : String
  ConditionKey : String
  ConditionValue : String
deriving DecidableEq, Repr

/-- An AWS key policy document. -/
structure KmsPolicy where
  Version : String
  Id : String
  Statement : List KmsPolicyStatement
deriving DecidableEq, Repr

/-- The fixed action list of the template. -/
def kmsActionList : List String :=
  ["kms:CreateKey", "kms:TagResource", "kms:DescribeKey", "kms:PutKeyPolicy",
   "kms:GetPublicKey", "kms:Sign", "kms:Verify", "kms:ScheduleKeyDeletion"]

/-- The content of the `kmsKeyPolicy` template: a single Allow statement for
the configured principal (`process.env.AWS_KMS_ROLE_ARN`, passed explicitly
here), all eight actions, every resource, gated by
`DateLessThan aws:CurrentTime < expire_at.toISOString()`. -/
def kmsKeyPolicy (awsKmsRoleArn : String) (expire_at : Dayjs) : KmsPolicy :=
  { Version := "2012-10-17"
    Id := "key-default-1"
    Statement := [{
      Sid := "AllowAccessUntilExpirationDate"
      Effect := "Allow"
      PrincipalAWS := awsKmsRoleArn
      Action := kmsActionList
      Resource := "*"
      ConditionOp := "DateLessThan"
      ConditionKey := "aws:CurrentTime"
      ConditionValue := toISOString expire_at }] }

/-- One quoted action line of the template's `Action` array. -/
def renderActionLine (a : String) : String := "        \"" ++ a ++ "\""

/-- The template text of one statement (exact whitespace of the source). -/
def renderKmsStatement (s : KmsPolicyStatement) : String :=
  "    \x7b\n      \"Sid\": \"" ++ s.Sid ++ "\",\n      \"Effect\": \"" ++
  s.Effect ++ "\",\n      \"Principal\": \x7b\n        \"AWS\": \"" ++
  s.PrincipalAWS ++ "\"\n      \x7d,\n      \"Action\": [\n" ++
  String.intercalate ",\n" (s.Action.map renderActionLine) ++
  "\n      ],\n      \"Resource\": \"" ++ s.Resource ++
  "\",\n      \"Condition\": \x7b\n        \"" ++ s.ConditionOp ++
  "\": \x7b\n          \"" ++ s.ConditionKey ++ "\": \"" ++ s.ConditionValue ++
  "\"\n        \x7d\n      \x7d\n    \x7d"

/-- The template text of a whole policy document. -/
def renderKmsPolicy (p : KmsPolicy) : String :=
  "\x7b\n  \"Version\": \"" ++ p.Version ++ "\",\n  \"Id\": \"" ++ p.Id ++
  "\",\n  \"Statement\": [\n" ++
  String.intercalate ",\n" (p.Statement.map renderKmsStatement) ++
  "\n  ]\n\x7d"

/-- The string the source's `kmsKeyPolicy` template literal produces. -/
def kmsKeyPolicyString (awsKmsRoleArn : String) (expire_at : Dayjs) : String :=
  renderKmsPolicy (kmsKeyPolicy awsKmsRoleArn expire_at)

/-! ## Remote responses and the four operations of kms.ts -/

/-- AWS `KeyMetadata`, restricted to the fields this module reads; both are
optional in the SDK response type. -/
structure KeyMetadata where
  KeyId : Option String
  Enabled : Option Bool
deriving DecidableEq, Repr

/-- `CreateKeyCommand` response. -/
structure CreateKeyResponse where
  KeyMetadata : Option KeyMetadata
deriving DecidableEq, Repr

/-- `GetPublicKeyCommand` response; `PublicKey` is an optional `Uint8Array`
(DER bytes). -/
structure GetPublicKeyResponse where
  PublicKey : Option (List Nat)
deriving DecidableEq, Repr

/-- `DescribeKeyCommand` response. -/
structure DescribeKeyResponse where
  KeyMetadata : Option KeyMetadata
deriving DecidableEq, Repr

/-- `SignCommand` response; `Signature` is an optional `Uint8Array`. -/
structure SignResponse where
  Signature : Option (List Nat)
deriving DecidableEq, Repr

/-- The non-`undefined` alternative of the source's `CreateKeyResult`. -/
structure CreateKeyResult where
  keyId : String
  publicKey : String
deriving DecidableEq, Repr

/-- `createKMSKey` (kms.ts lines 88–121).  `createResp` is the outcome of
`client.send(new CreateKeyCommand ...)`, `getPublicKeyResp keyId` the outcome
of `client.send(new GetPublicKeyCommand ⟨keyId⟩)`; a thrown error from either
is caught by the single try/catch and the function returns `undefined`.  The
`if (keyId)` guard is JS string truthiness (absent or empty string fails);
the `if (PublicKey)` guard is object truthiness (only absent fails). -/
def createKMSKey (createResp : Except SimError CreateKeyResponse)
    (getPublicKeyResp : String → Except SimError GetPublicKeyResponse) :
    Option CreateKeyResult :=
  match createResp with
  | .error _ => none
  | .ok r =>
    match r.KeyMetadata.bind (·.KeyId) with
    | none => none
    | some keyId =>
      if keyId = "" then none
      else
        match getPublicKeyResp keyId with
        | .error _ => none
        | .ok g =>
          match g.PublicKey with
          | none => none
          | some pk =>
            some { keyId := keyId
                   publicKey := "-----BEGIN PUBLIC KEY-----\n" ++
                     String.mk (base64StdEncode pk) ++
                     "\n-----END PUBLIC KEY-----" }

/-- `getKMSKeyStatus` (kms.ts lines 123–134): returns
`KeyMetadata?.Enabled` on a successful describe, `undefined` when the call
throws (caught and logged). -/
def getKMSKeyStatus (describeResp : Except SimError DescribeKeyResponse) :
    Option Bool :=
  match describeResp with
  | .error _ => none
  | .ok r => r.KeyMetadata.bind (·.Enabled)

/-- The JWK record returned by `retrieveJWK`, as destructured by the source
(`const \x7b kms_id \x7d = await retrieveJWK(header.kid)`). -/
structure JWK where
  kms_id : String
deriving DecidableEq, Repr

/-- The fields of the `SignCommand` the source constructs. -/
structure SignCommandParams where
  KeyId : String
  Message : List Nat
  MessageType : String
  SigningAlgorithm : String
deriving DecidableEq, Repr

/-- `` `${encodedHeader}.${encodedPayload}` `` of kms.ts lines 141–143: the
JWS signing input. -/
def encodedHeaderPayload (header payload : JRecord) : String :=
  base64urlEncodeStr (utf8Bytes (jsonStringify header)) ++ "." ++
  base64urlEncodeStr (utf8Bytes (jsonStringify payload))

/-- The `SignCommand` of kms.ts lines 148–153: raw RSASSA-PKCS1-v1_5/SHA-256
signature over `Buffer.from(encodedHeaderPayload)`. -/
def mkSignCommand (kms_id : String) (header payload : JRecord) :
    SignCommandParams :=
  { KeyId := kms_id
    Message := utf8Bytes (encodedHeaderPayload header payload)
    MessageType := "RAW"
    SigningAlgorithm := "RSASSA_PKCS1_V1_5_SHA_256" }

/-- The chained `.replace(/\+/g, "-").replace(/\//g, "_").replace(/=/g, "")`
of kms.ts lines 158–162. -/
def joseReplace (s : String) : String :=
  String.mk (((s.data.map fun c => if c = '+' then '-' else c).map
    fun c => if c = '/' then '_' else c).filter fun c => c ≠ '=')

/-- `signJWTWithKMSKey` (kms.ts lines 136–168).  `retrieveJWKOutcome` is the
outcome of `retrieveJWK(header.kid)` (the external JWK store, a function of
the `kid` property of `header`); `send` is the outcome of
`client.send(new SignCommand ...)` as a function of the command.  Any thrown
error is caught and the function returns `undefined`; `response?.Signature`
is an object-truthiness guard, so an empty signature array passes it. -/
def signJWTWithKMSKey (retrieveJWKOutcome : Option String → Except SimError JWK)
    (send : SignCommandParams → Except SimError SignResponse)
    (header payload : JRecord) : Option String :=
  let ehp := encodedHeaderPayload header payload
  match retrieveJWKOutcome (jGet header "kid") with
  | .error _ => none
  | .ok jwk =>
    match send (mkSignCommand jwk.kms_id header payload) with
    | .error _ => none
    | .ok response =>
      match response.Signature with
      | none => none
      | some sig => some (ehp ++ "." ++ joseReplace (base64urlEncodeStr sig))

/-- The fields of the `ScheduleKeyDeletionCommand` the source constructs. -/
structure ScheduleKeyDeletionParams where
  KeyId : String
  PendingWindowInDays : Nat
deriving DecidableEq, Repr

/-- The command built at kms.ts lines 173–176: the pending window is the
hard-coded literal 7 (the function takes no window argument). -/
def scheduleKeyDeletionCommand (keyId : String) : ScheduleKeyDeletionParams :=
  { KeyId := keyId, PendingWindowInDays := 7 }

/-- `scheduleKeyDeletion` (kms.ts lines 170–181): awaits the remote call,
catches and logs any error, and returns `undefined` on every path. -/
def scheduleKeyDeletion (keyId : String)
    (send : ScheduleKeyDeletionParams → Except SimError Unit) : Option Unit :=
  match send (scheduleKeyDeletionCommand keyId) with
  | .error _ => none
  | .ok _ => none

/-! ## Helper lemmas about the signing pipeline -/

/-- The jose encoder already emits url-safe unpadded output, so the source's
three `replace` calls are the identity on it. -/
theorem joseReplace_base64url (bs : List Nat) (hb : ∀ b ∈ bs, b < 256) :
    joseReplace (base64urlEncodeStr bs) = base64urlEncodeStr bs := by
  have hmem := base64urlEncode_mem bs hb
  simp only [joseReplace, base64urlEncodeStr]
  congr 1
  have h1 : (base64urlEncode bs).map (fun c => if c = '+' then '-' else c) =
      base64urlEncode bs := by
    conv_rhs => rw [← List.map_id (base64urlEncode bs)]
    apply List.map_congr_left
    intro c hc
    obtain ⟨i, rfl⟩ := hmem c hc
    simp only [if_neg (b64UrlChar_props i).2.1, id]
  rw [h1]
  have h2 : (base64urlEncode bs).map (fun c => if c = '/' then '_' else c) =
      base64urlEncode bs := by
    conv_rhs => rw [← List.map_id (base64urlEncode bs)]
    apply List.map_congr_left
    intro c hc
    obtain ⟨i, rfl⟩ := hmem c hc
    simp only [if_neg (b64UrlChar_props i).2.2.1, id]
  rw [h2]
  apply List.filter_eq_self.mpr
  intro c hc
  obtain ⟨i, rfl⟩ := hmem c hc
  simp only [ne_eq, (b64UrlChar_props i).2.2.2, not_false_iff, decide_True]

/-- Decomposition of any successful `signJWTWithKMSKey` run: the JWK lookup
succeeded, the `SignCommand` built from its `kms_id` was sent and answered
with a present `Signature`, and the result is the signing input extended by
a dot and the re-encoded signature. -/
theorem signJWT_success_shape
    (retrieveJWKOutcome : Option String → Except SimError JWK)
    (send : SignCommandParams → Except SimError SignResponse)
    (header payload : JRecord) (t : String)
    (ht : signJWTWithKMSKey retrieveJWKOutcome send header payload = some t) :
    ∃ jwk sig, retrieveJWKOutcome (jGet header "kid") = .ok jwk ∧
      send (mkSignCommand jwk.kms_id header payload) = .ok ⟨some sig⟩ ∧
      t = encodedHeaderPayload header payload ++ "." ++
        joseReplace (base64urlEncodeStr sig) := by
  cases hr : retrieveJWKOutcome (jGet header "kid") with
  | error e => simp [signJWTWithKMSKey, hr] at ht
  | ok jwk =>
    cases hs : send (mkSignCommand jwk.kms_id header payload) with
    | error e => simp [signJWTWithKMSKey, hr, hs] at ht
    | ok resp =>
      obtain ⟨sigField⟩ := resp
      cases sigField with
      | none => simp [signJWTWithKMSKey, hr, hs] at ht
      | some sig =>
        simp only [signJWTWithKMSKey, hr, hs, Option.some.injEq] at ht
        exact ⟨jwk, sig, rfl, hs, ht.symm⟩

/-! ## Claims -/

/-- C2 (counterexample): `scheduleKeyDeletion` returns the very same value
(`undefined`) when the remote `ScheduleKeyDeletion` call fails as when it
succeeds, so the failure is not an explicit result distinguishable from
success. -/
theorem scheduleKeyDeletion_failure_indistinguishable :
    scheduleKeyDeletion "key-1"
        (fun _ => .error (.failure "ScheduleKeyDeletion failed")) =
      scheduleKeyDeletion "key-1" (fun _ => .ok ()) := rfl

/-- C2 (amended): every failure of the remote `ScheduleKeyDeletion` call is
caught at the function boundary (logged, never re-thrown), but the function
returns `undefined` on every path, so the caller receives the same value on
failure as on success and cannot distinguish the two. -/
theorem scheduleKeyDeletion_always_undefined (keyId : String)
    (send : ScheduleKeyDeletionParams → Except SimError Unit) :
    scheduleKeyDeletion keyId send = none := by
  unfold scheduleKeyDeletion
  cases send (scheduleKeyDeletionCommand keyId) <;> rfl

/-- C6: `scheduleKeyDeletion` accepts no pending-window argument; the
`ScheduleKeyDeletionCommand` it issues always carries the hard-coded
`PendingWindowInDays = 7`, so a window below the remote minimum of 7 can
never be sent — no call with a smaller window can even be formed. -/
theorem scheduleKeyDeletion_window_is_minimum (keyId : String) :
    (scheduleKeyDeletionCommand keyId).PendingWindowInDays = 7 ∧
    ¬ (scheduleKeyDeletionCommand keyId).PendingWindowInDays < 7 :=
  ⟨rfl, by simp [scheduleKeyDeletionCommand]⟩

/-- C7: when `DescribeKey` throws, `getKMSKeyStatus` returns `undefined`
(`none`), never a boolean. -/
theorem getKMSKeyStatus_error_never_bool (e : SimError) :
    getKMSKeyStatus (.error e) = none ∧
    ∀ b : Bool, getKMSKeyStatus (.error e) ≠ some b := by
  exact ⟨rfl, fun b => by simp [getKMSKeyStatus]⟩

/-- C10: `getKMSKeyStatus` also returns `undefined` on a *successful*
describe whose response lacks `KeyMetadata` or lacks `Enabled`, and that
value is identical to the one returned when the call fails — the two
outcomes are indistinguishable at the interface. -/
theorem getKMSKeyStatus_absent_indistinguishable (e : SimError)
    (kid : Option String) :
    getKMSKeyStatus (.ok ⟨none⟩) = none ∧
    getKMSKeyStatus (.ok ⟨some ⟨kid, none⟩⟩) = none ∧
    getKMSKeyStatus (.error e) = none ∧
    getKMSKeyStatus (.ok ⟨none⟩) = getKMSKeyStatus (.error e) ∧
    getKMSKeyStatus (.ok ⟨some ⟨kid, none⟩⟩) = getKMSKeyStatus (.error e) :=
  ⟨rfl, rfl, rfl, rfl, rfl⟩

/-- C8: scenario B — signing `(\x7bkid:"abc123"\x7d, \x7bsub:"user1"\x7d)`
with a JWK store answering `kms-1` for `abc123` and a stub remote signature
of bytes `0xAA 0xBB 0xCC` yields the compact token whose signature segment
is exactly `qrvM`, the unpadded base64url of those three bytes. -/
theorem sign_scenario_stub_signature :
    signJWTWithKMSKey
        (fun k => if k = some "abc123" then .ok ⟨"kms-1"⟩
                  else .error (.failure "no jwk"))
        (fun _ => .ok ⟨some [170, 187, 204]⟩)
        ⟨[("kid", "abc123")]⟩ ⟨[("sub", "user1")]⟩ =
      some "eyJraWQiOiJhYmMxMjMifQ.eyJzdWIiOiJ1c2VyMSJ9.qrvM" := by
  decide

/-- C1: every token a successful `signJWTWithKMSKey` returns is the two
unpadded base64url encodings of the JSON serializations of `header` and
`payload` and a base64url signature segment, dot-joined; it contains exactly
two dots, decoding the first two segments reproduces the serialized
header/payload bytes exactly, and the signature segment contains no `+`,
`/` or `=`.  The hypothesis `hbytes` states that the remote service only
ever returns genuine byte arrays (entries below 256). -/
theorem sign_token_wellformed
    (retrieveJWKOutcome : Option String → Except SimError JWK)
    (send : SignCommandParams → Except SimError SignResponse)
    (header payload : JRecord) (t : String)
    (hbytes : ∀ p r, send p = .ok r → ∀ sig, r.Signature = some sig →
        ∀ b ∈ sig, b < 256)
    (ht : signJWTWithKMSKey retrieveJWKOutcome send header payload = some t) :
    ∃ sig : List Nat,
      t = base64urlEncodeStr (utf8Bytes (jsonStringify header)) ++ "." ++
          (base64urlEncodeStr (utf8Bytes (jsonStringify payload)) ++ "." ++
           base64urlEncodeStr sig) ∧
      t.data.count '.' = 2 ∧
      base64urlDecode (base64urlEncode (utf8Bytes (jsonStringify header))) =
        some (utf8Bytes (jsonStringify header)) ∧
      base64urlDecode (base64urlEncode (utf8Bytes (jsonStringify payload))) =
        some (utf8Bytes (jsonStringify payload)) ∧
      '+' ∉ base64urlEncode sig ∧ '/' ∉ base64urlEncode sig ∧
      '=' ∉ base64urlEncode sig := by
  obtain ⟨jwk, sig, hr, hs, hteq⟩ := signJWT_success_shape _ _ _ _ _ ht
  have hb : ∀ b ∈ sig, b < 256 := hbytes _ _ hs sig rfl
  have hbh := utf8Bytes_lt (jsonStringify header)
  have hbp := utf8Bytes_lt (jsonStringify payload)
  refine ⟨sig, ?_, ?_,
    base64urlDecode_encode _ hbh, base64urlDecode_encode _ hbp, ?_, ?_, ?_⟩
  · rw [hteq, joseReplace_base64url sig hb]
    simp [encodedHeaderPayload, String.append_assoc]
  · rw [hteq, joseReplace_base64url sig hb]
    have c1 : (base64urlEncode (utf8Bytes (jsonStringify header))).count '.' = 0 :=
      List.count_eq_zero.mpr (base64urlEncode_no_dot _ hbh)
    have c2 : (base64urlEncode (utf8Bytes (jsonStringify payload))).count '.' = 0 :=
      List.count_eq_zero.mpr (base64urlEncode_no_dot _ hbp)
    have c3 : (base64urlEncode sig).count '.' = 0 :=
      List.count_eq_zero.mpr (base64urlEncode_no_dot _ hb)
    simp [encodedHeaderPayload, base64urlEncodeStr, String.data_append,
      List.count_append, c1, c2, c3, List.count_cons]
  · intro hmem
    obtain ⟨i, hi⟩ := base64urlEncode_mem sig hb _ hmem
    exact (b64UrlChar_props i).2.1 hi.symm
  · intro hmem
    obtain ⟨i, hi⟩ := base64urlEncode_mem sig hb _ hmem
    exact (b64UrlChar_props i).2.2.1 hi.symm
  · intro hmem
    obtain ⟨i, hi⟩ := base64urlEncode_mem sig hb _ hmem
    exact (b64UrlChar_props i).2.2.2 hi.symm

/-- C1 witness: the well-formedness conclusion holds at the concrete
scenario-B inputs. -/
theorem sign_token_wellformed_witness :
    ∃ sig : List Nat,
      ("eyJraWQiOiJhYmMxMjMifQ.eyJzdWIiOiJ1c2VyMSJ9.qrvM" : String) =
        base64urlEncodeStr (utf8Bytes (jsonStringify ⟨[("kid", "abc123")]⟩)) ++
          "." ++
          (base64urlEncodeStr (utf8Bytes (jsonStringify ⟨[("sub", "user1")]⟩)) ++
            "." ++ base64urlEncodeStr sig) ∧
      ("eyJraWQiOiJhYmMxMjMifQ.eyJzdWIiOiJ1c2VyMSJ9.qrvM" : String).data.count
        '.' = 2 ∧
      base64urlDecode
          (base64urlEncode (utf8Bytes (jsonStringify ⟨[("kid", "abc123")]⟩))) =
        some (utf8Bytes (jsonStringify ⟨[("kid", "abc123")]⟩)) ∧
      base64urlDecode
          (base64urlEncode (utf8Bytes (jsonStringify ⟨[("sub", "user1")]⟩))) =
        some (utf8Bytes (jsonStringify ⟨[("sub", "user1")]⟩)) ∧
      '+' ∉ base64urlEncode sig ∧ '/' ∉ base64urlEncode sig ∧
      '=' ∉ base64urlEncode sig :=
  sign_token_wellformed
    (fun k => if k = some "abc123" then .ok ⟨"kms-1"⟩
              else .error (.failure "no jwk"))
    (fun _ => .ok ⟨some [170, 187, 204]⟩)
    ⟨[("kid", "abc123")]⟩ ⟨[("sub", "user1")]⟩
    "eyJraWQiOiJhYmMxMjMifQ.eyJzdWIiOiJ1c2VyMSJ9.qrvM"
    (by
      intro p r hp sig hsig b hb
      cases hp
      simp only [SignResponse.mk.injEq, Option.some.injEq] at hsig
      subst hsig
      simp only [List.mem_cons, List.not_mem_nil, or_false] at hb
      rcases hb with rfl | rfl | rfl <;> omega)
    (by decide)

/-- C4 (counterexample): a Sign response whose `Signature` field is present
but holds zero bytes — no signature bytes at all — still passes the
truthiness guard `if (response?.Signature)`, and the function returns a
token whose signature segment is empty (the returned string ends in a
dot). -/
theorem sign_empty_signature_emits_token :
    signJWTWithKMSKey
        (fun k => if k = some "abc123" then .ok ⟨"kms-1"⟩
                  else .error (.failure "no jwk"))
        (fun _ => .ok ⟨some []⟩)
        ⟨[("kid", "abc123")]⟩ ⟨[("sub", "user1")]⟩ =
      some "eyJraWQiOiJhYmMxMjMifQ.eyJzdWIiOiJ1c2VyMSJ9." := by
  decide

/-- C4 (amended): if JWK resolution throws, or the remote Sign call throws,
or the Sign response has no `Signature` field at all, `signJWTWithKMSKey`
returns `undefined` — no token.  (A present-but-empty signature byte array
is not one of these cases: the code then returns a token with an empty
signature segment.) -/
theorem sign_failure_paths_yield_no_token
    (retrieveJWKOutcome : Option String → Except SimError JWK)
    (send : SignCommandParams → Except SimError SignResponse)
    (header payload : JRecord) :
    (∀ e, retrieveJWKOutcome (jGet header "kid") = .error e →
        signJWTWithKMSKey retrieveJWKOutcome send header payload = none) ∧
    (∀ jwk e, retrieveJWKOutcome (jGet header "kid") = .ok jwk →
        send (mkSignCommand jwk.kms_id header payload) = .error e →
        signJWTWithKMSKey retrieveJWKOutcome send header payload = none) ∧
    (∀ jwk, retrieveJWKOutcome (jGet header "kid") = .ok jwk →
        send (mkSignCommand jwk.kms_id header payload) = .ok ⟨none⟩ →
        signJWTWithKMSKey retrieveJWKOutcome send header payload = none) := by
  refine ⟨?_, ?_, ?_⟩
  · intro e he
    simp [signJWTWithKMSKey, he]
  · intro jwk e hj hs
    simp [signJWTWithKMSKey, hj, hs]
  · intro jwk hj hs
    simp [signJWTWithKMSKey, hj, hs]

/-- C4 witness: the first failure path at a concrete input. -/
theorem sign_failure_paths_yield_no_token_witness :
    signJWTWithKMSKey (fun _ => .error (.failure "no jwk"))
        (fun _ => .ok ⟨some [1]⟩) ⟨[("kid", "k")]⟩ ⟨[]⟩ = none :=
  (sign_failure_paths_yield_no_token _ _ _ _).1 (.failure "no jwk") rfl

/-- C9: whenever `signJWTWithKMSKey` succeeds, the message the `SignCommand`
carried is exactly the UTF-8 bytes of `encodedHeaderPayload`, and the token
extends that very string by a dot and a dot-free signature segment — since
the signing input itself contains exactly one dot, the token's first two
segments joined by a dot are precisely what was signed. -/
theorem sign_message_is_token_first_segments
    (retrieveJWKOutcome : Option String → Except SimError JWK)
    (send : SignCommandParams → Except SimError SignResponse)
    (header payload : JRecord) (t : String)
    (hbytes : ∀ p r, send p = .ok r → ∀ sig, r.Signature = some sig →
        ∀ b ∈ sig, b < 256)
    (ht : signJWTWithKMSKey retrieveJWKOutcome send header payload = some t) :
    ∃ jwk sigSeg,
      retrieveJWKOutcome (jGet header "kid") = .ok jwk ∧
      (mkSignCommand jwk.kms_id header payload).Message =
        utf8Bytes (encodedHeaderPayload header payload) ∧
      t = encodedHeaderPayload header payload ++ "." ++ sigSeg ∧
      '.' ∉ sigSeg.data ∧
      (encodedHeaderPayload header payload).data.count '.' = 1 := by
  obtain ⟨jwk, sig, hr, hs, hteq⟩ := signJWT_success_shape _ _ _ _ _ ht
  have hb : ∀ b ∈ sig, b < 256 := hbytes _ _ hs sig rfl
  have hbh := utf8Bytes_lt (jsonStringify header)
  have hbp := utf8Bytes_lt (jsonStringify payload)
  refine ⟨jwk, joseReplace (base64urlEncodeStr sig), hr, rfl, hteq, ?_, ?_⟩
  · rw [joseReplace_base64url sig hb]
    exact base64urlEncode_no_dot sig hb
  · have c1 : (base64urlEncode (utf8Bytes (jsonStringify header))).count '.' = 0 :=
      List.count_eq_zero.mpr (base64urlEncode_no_dot _ hbh)
    have c2 : (base64urlEncode (utf8Bytes (jsonStringify payload))).count '.' = 0 :=
      List.count_eq_zero.mpr (base64urlEncode_no_dot _ hbp)
    simp [encodedHeaderPayload, base64urlEncodeStr, String.data_append,
      List.count_append, c1, c2, List.count_cons]

/-- C9 witness: the decomposition at the concrete scenario-B inputs. -/
theorem sign_message_is_token_first_segments_witness :
    ∃ jwk sigSeg,
      (fun k => if k = some "abc123" then Except.ok (JWK.mk "kms-1")
                else Except.error (SimError.failure "no jwk"))
          (jGet ⟨[("kid", "abc123")]⟩ "kid") = Except.ok jwk ∧
      (mkSignCommand jwk.kms_id ⟨[("kid", "abc123")]⟩ ⟨[("sub", "user1")]⟩).Message =
        utf8Bytes (encodedHeaderPayload ⟨[("kid", "abc123")]⟩ ⟨[("sub", "user1")]⟩) ∧
      ("eyJraWQiOiJhYmMxMjMifQ.eyJzdWIiOiJ1c2VyMSJ9.qrvM" : String) =
        encodedHeaderPayload ⟨[("kid", "abc123")]⟩ ⟨[("sub", "user1")]⟩ ++ "." ++
          sigSeg ∧
      '.' ∉ sigSeg.data ∧
      (encodedHeaderPayload ⟨[("kid", "abc123")]⟩ ⟨[("sub", "user1")]⟩).data.count
        '.' = 1 :=
  sign_message_is_token_first_segments
    (fun k => if k = some "abc123" then .ok ⟨"kms-1"⟩
              else .error (.failure "no jwk"))
    (fun _ => .ok ⟨some [170, 187, 204]⟩)
    ⟨[("kid", "abc123")]⟩ ⟨[("sub", "user1")]⟩
    "eyJraWQiOiJhYmMxMjMifQ.eyJzdWIiOiJ1c2VyMSJ9.qrvM"
    (by
      intro p r hp sig hsig b hb
      cases hp
      simp only [SignResponse.mk.injEq, Option.some.injEq] at hsig
      subst hsig
      simp only [List.mem_cons, List.not_mem_nil, or_false] at hb
      rcases hb with rfl | rfl | rfl <;> omega)
    (by decide)

/-- C5: `createKMSKey` either returns a record whose `publicKey` is the PEM
armor around the valid (decodable) standard-base64 encoding of the fetched
key bytes, or returns `undefined`; and on each failure path — thrown
`CreateKey`, missing `KeyId`, thrown `GetPublicKey`, missing `PublicKey`
field — it returns `undefined`, never a partial record.  `hbytes` states
the remote returns genuine byte arrays. -/
theorem createKMSKey_contract
    (createResp : Except SimError CreateKeyResponse)
    (getPublicKeyResp : String → Except SimError GetPublicKeyResponse)
    (hbytes : ∀ keyId g pk, getPublicKeyResp keyId = .ok g →
        g.PublicKey = some pk → ∀ b ∈ pk, b < 256) :
    ((∃ res pk, createKMSKey createResp getPublicKeyResp = some res ∧
        res.publicKey = "-----BEGIN PUBLIC KEY-----\n" ++
          String.mk (base64StdEncode pk) ++ "\n-----END PUBLIC KEY-----" ∧
        base64StdDecode (base64StdEncode pk) = some pk) ∨
      createKMSKey createResp getPublicKeyResp = none) ∧
    (∀ e, createResp = .error e →
        createKMSKey createResp getPublicKeyResp = none) ∧
    (∀ r, createResp = .ok r → r.KeyMetadata.bind (·.KeyId) = none →
        createKMSKey createResp getPublicKeyResp = none) ∧
    (∀ r keyId e, createResp = .ok r →
        r.KeyMetadata.bind (·.KeyId) = some keyId →
        getPublicKeyResp keyId = .error e →
        createKMSKey createResp getPublicKeyResp = none) ∧
    (∀ r keyId g, createResp = .ok r →
        r.KeyMetadata.bind (·.KeyId) = some keyId →
        getPublicKeyResp keyId = .ok g → g.PublicKey = none →
        createKMSKey createResp getPublicKeyResp = none) := by
  refine ⟨?_, ?_, ?_, ?_, ?_⟩
  · cases hc : createResp with
    | error e => exact Or.inr (by simp [createKMSKey, hc])
    | ok r =>
      cases hk : r.KeyMetadata.bind (·.KeyId) with
      | none => exact Or.inr (by simp [createKMSKey, hc, hk])
      | some keyId =>
        by_cases hke : keyId = ""
        · exact Or.inr (by simp [createKMSKey, hc, hk, hke])
        · cases hg : getPublicKeyResp keyId with
          | error e => exact Or.inr (by simp [createKMSKey, hc, hk, hke, hg])
          | ok g =>
            cases hpk : g.PublicKey with
            | none => exact Or.inr (by simp [createKMSKey, hc, hk, hke, hg, hpk])
            | some pk =>
              refine Or.inl ⟨⟨keyId, "-----BEGIN PUBLIC KEY-----\n" ++
                  String.mk (base64StdEncode pk) ++
                  "\n-----END PUBLIC KEY-----"⟩, pk, ?_, rfl,
                base64StdDecode_encode pk (hbytes _ _ _ hg hpk)⟩
              simp [createKMSKey, hc, hk, hke, hg, hpk]
  · intro e he
    simp [createKMSKey, he]
  · intro r hr hk
    simp [createKMSKey, hr, hk]
  · intro r keyId e hr hk hg
    by_cases hke : keyId = "" <;> simp [createKMSKey, hr, hk, hke, hg]
  · intro r keyId g hr hk hg hpk
    by_cases hke : keyId = "" <;> simp [createKMSKey, hr, hk, hke, hg, hpk]

/-- C5 witness: a failure path at concrete inputs. -/
theorem createKMSKey_contract_witness :
    createKMSKey (.error (.failure "CreateKey failed"))
        (fun _ => .ok ⟨some [1, 2, 3, 4]⟩) = none :=
  (createKMSKey_contract (.error (.failure "CreateKey failed"))
      (fun _ => .ok ⟨some [1, 2, 3, 4]⟩)
      (by
        intro keyId g pk hg hpk b hb
        cases hg
        simp only [GetPublicKeyResponse.mk.injEq, Option.some.injEq] at hpk
        subst hpk
        simp only [List.mem_cons, List.not_mem_nil, or_false] at hb
        rcases hb with rfl | rfl | rfl | rfl <;> omega)).2.1
    (.failure "CreateKey failed") rfl

set_option maxRecDepth 10000 in
set_option maxHeartbeats 1000000 in
/-- C3: for every expiration instant, the policy document grants exactly the
fixed eight-action set to the single configured principal, gated by a
`DateLessThan aws:CurrentTime` condition whose value is the instant rendered
in ISO-8601 UTC with millisecond precision; the rendered instant appears
textually in the document string; the rendering loses nothing (it is
injective on valid instants); and equal inputs give structurally equal
documents. -/
theorem kmsKeyPolicy_contract (arn : String) (d d' : Dayjs)
    (hd : d.validISO) (hd' : d'.validISO) :
    (kmsKeyPolicy arn d).Statement =
      [{ Sid := "AllowAccessUntilExpirationDate", Effect := "Allow",
         PrincipalAWS := arn, Action := kmsActionList, Resource := "*",
         ConditionOp := "DateLessThan", ConditionKey := "aws:CurrentTime",
         ConditionValue := toISOString d }] ∧
    kmsActionList = ["kms:CreateKey", "kms:TagResource", "kms:DescribeKey",
      "kms:PutKeyPolicy", "kms:GetPublicKey", "kms:Sign", "kms:Verify",
      "kms:ScheduleKeyDeletion"] ∧
    (∃ pre post : String,
      kmsKeyPolicyString arn d = pre ++ toISOString d ++ post) ∧
    (toISOString d = toISOString d' → d = d') ∧
    (d = d' → kmsKeyPolicy arn d = kmsKeyPolicy arn d') := by
  refine ⟨rfl, rfl, ?_, toISOString_inj d d' hd hd', fun h => by rw [h]⟩
  refine ⟨"\x7b\n  \"Version\": \"2012-10-17\",\n  \"Id\": \"key-default-1\",\n  \"Statement\": [\n    \x7b\n      \"Sid\": \"AllowAccessUntilExpirationDate\",\n      \"Effect\": \"Allow\",\n      \"Principal\": \x7b\n        \"AWS\": \"" ++
    arn ++
    "\"\n      \x7d,\n      \"Action\": [\n        \"kms:CreateKey\",\n        \"kms:TagResource\",\n        \"kms:DescribeKey\",\n        \"kms:PutKeyPolicy\",\n        \"kms:GetPublicKey\",\n        \"kms:Sign\",\n        \"kms:Verify\",\n        \"kms:ScheduleKeyDeletion\"\n      ],\n      \"Resource\": \"*\",\n      \"Condition\": \x7b\n        \"DateLessThan\": \x7b\n          \"aws:CurrentTime\": \"",
    "\"\n        \x7d\n      \x7d\n    \x7d\n  ]\n\x7d", ?_⟩
  apply String.ext
  simp [kmsKeyPolicyString, renderKmsPolicy, renderKmsStatement, kmsKeyPolicy,
    renderActionLine, kmsActionList, String.intercalate, String.intercalate.go,
    String.data_append, List.append_assoc]

/-- C3 witness: the contract at a concrete principal and instant. -/
theorem kmsKeyPolicy_contract_witness :
    (kmsKeyPolicy "arn:aws:iam::000:role/dev-portal"
        ⟨2024, 3, 7, 15, 4, 5, 42⟩).Statement =
      [{ Sid := "AllowAccessUntilExpirationDate", Effect := "Allow",
         PrincipalAWS := "arn:aws:iam::000:role/dev-portal",
         Action := kmsActionList, Resource := "*",
         ConditionOp := "DateLessThan", ConditionKey := "aws:CurrentTime",
         ConditionValue := toISOString ⟨2024, 3, 7, 15, 4, 5, 42⟩ }] ∧
    kmsActionList = ["kms:CreateKey", "kms:TagResource", "kms:DescribeKey",
      "kms:PutKeyPolicy", "kms:GetPublicKey", "kms:Sign", "kms:Verify",
      "kms:ScheduleKeyDeletion"] ∧
    (∃ pre post : String,
      kmsKeyPolicyString "arn:aws:iam::000:role/dev-portal"
          ⟨2024, 3, 7, 15, 4, 5, 42⟩ =
        pre ++ toISOString ⟨2024, 3, 7, 15, 4, 5, 42⟩ ++ post) ∧
    (toISOString ⟨2024, 3, 7, 15, 4, 5, 42⟩ =
        toISOString ⟨2024, 3, 7, 15, 4, 5, 42⟩ →
      (⟨2024, 3, 7, 15, 4, 5, 42⟩ : Dayjs) = ⟨2024, 3, 7, 15, 4, 5, 42⟩) ∧
    ((⟨2024, 3, 7, 15, 4, 5, 42⟩ : Dayjs) = ⟨2024, 3, 7, 15, 4, 5, 42⟩ →
      kmsKeyPolicy "arn:aws:iam::000:role/dev-portal" ⟨2024, 3, 7, 15, 4, 5, 42⟩ =
        kmsKeyPolicy "arn:aws:iam::000:role/dev-portal"
          ⟨2024, 3, 7, 15, 4, 5, 42⟩) :=
  kmsKeyPolicy_contract "arn:aws:iam::000:role/dev-portal"
    ⟨2024, 3, 7, 15, 4, 5, 42⟩ ⟨2024, 3, 7, 15, 4, 5, 42⟩
    (by decide) (by decide)

end KmsSpec
